import Mathlib

/-!
Verification of the spixels DMA multi-SPI engine (src/lib/dma-multi-spi.cc).

We give a shallow embedding of the engine's state and operations:

* `GPIOData` mirrors `struct DMAMultiSPI::GPIOData` (four `uint32_t`
  fields: `set`, `ignored_upper_set_bits`, `reserved_area`, `clr`);
  machine words are modelled as `Nat`, with all writes confined to bit
  positions below 32 (the code's `1 << gpio` with a GPIO number < 32).
* `EngineState` mirrors the mutable fields relevant to buffer synthesis:
  `clock_gpio_`, `serial_byte_size_` and the `gpio_shadow_` buffer,
  the latter as a `List GPIOData` whose length tracks
  `gpio_buffer_size_ / sizeof(GPIOData)`.
* `RegisterDataGpio` (source: `DMAMultiSPI::RegisterDataGPIO`, renamed
  only in capitalisation), `SetBufferedByte`, `FinishRegistration` and
  `SendBuffers` are translated from the source, statement for statement.

External collaborators (the `ft::GPIO` pin service, the uncached-memory
allocator with its virtual-to-physical translation, and the register-map
constants from `rpi-dma.h`) are out of scope per the design document and
enter only as parameters: a translation function `phys : Nat → Nat` from
offsets inside the allocated block to physical addresses, the byte size
of a `dma_cb`, and the bit positions of the ACTIVE and ERROR flags of
the DMA `cs` register.
-/

namespace Spixels

/-- One timeline slot: `struct DMAMultiSPI::GPIOData`.  Field layout in the
hardware: `set` lands on the pin-set register, `clr` on the pin-clear
register, with two ignored words between them. -/
structure GPIOData where
  set : Nat
  ignored_upper_set_bits : Nat
  reserved_area : Nat
  clr : Nat
deriving DecidableEq

/-- The all-zero slot, the state of freshly `bzero`ed storage. -/
def GPIOData.zero : GPIOData := ⟨0, 0, 0, 0⟩

/-- Source line 104: `return bytes * 8 * 2 + 1;` — two GPIO operations per
bit, eight bits per byte, plus one trailing operation to pull the clock
low. -/
def bytes_to_gpio_ops (bytes : Nat) : Nat := bytes * 8 * 2 + 1

/-- Mask update `m |= (1 << g)` on a 32-bit register image. -/
def pinBitSet (m g : Nat) : Nat := m ||| (1 <<< g)

/-- Mask update `m &= ~(1 << g)` on a 32-bit register image; the
complement of a `uint32_t` is its xor with `0xFFFFFFFF`. -/
def pinBitClear (m g : Nat) : Nat := m &&& (0xFFFFFFFF ^^^ (1 <<< g))

/-- Body of the branch in `SetBufferedByte` (source lines 190-196): on a
1-bit the data pin is set in the slot's set-mask and removed from its
clear-mask, on a 0-bit the converse. -/
def applyDataBit (g : Nat) (level : Bool) (d : GPIOData) : GPIOData :=
  if level then
    { d with set := pinBitSet d.set g, clr := pinBitClear d.clr g }
  else
    { d with set := pinBitClear d.set g, clr := pinBitSet d.clr g }

/-- Clock pre-pattern written by `RegisterDataGPIO` (source lines
131-136) into a freshly zeroed slot: even slots get `clr = 1 << clock`,
odd slots get `set = 1 << clock`. -/
def clockPatternSlot (clock i : Nat) : GPIOData :=
  if i % 2 = 0 then { GPIOData.zero with clr := 1 <<< clock }
  else { GPIOData.zero with set := 1 <<< clock }

/-- The engine state manipulated by registration and byte encoding:
fields `clock_gpio_`, `serial_byte_size_` and the shadow buffer
`gpio_shadow_` of `DMAMultiSPI`. -/
structure EngineState where
  clock_gpio : Nat
  serial_byte_size : Nat
  gpio_shadow : List GPIOData
deriving DecidableEq

/-- Constructor state (source lines 84-92): no bytes registered, no
shadow buffer allocated yet. -/
def initState (clock : Nat) : EngineState :=
  { clock_gpio := clock, serial_byte_size := 0, gpio_shadow := [] }

/-- Timeline growth, source lines 113-137: when the request exceeds the
current capacity, remember the end of the previous buffer
(`prev_gpio_end = bytes_to_gpio_ops(old) - 1`), bump
`serial_byte_size_`, reallocate to `bytes_to_gpio_ops(new)` slots,
zero-fill from `prev_gpio_end` on, and write the alternating clock
pattern into exactly that zeroed region.  `realloc` keeps the slots
below `prev_gpio_end` intact (`List.take`); the zero-fill and the
pattern loop cover the same index range, so each slot there becomes
`clockPatternSlot`. -/
def registerGrow (s : EngineState) (requested_bytes : Nat) : EngineState :=
  if requested_bytes > s.serial_byte_size then
    let prev_gpio_end := bytes_to_gpio_ops s.serial_byte_size - 1
    let gpio_operations := bytes_to_gpio_ops requested_bytes
    { s with
      serial_byte_size := requested_bytes,
      gpio_shadow :=
        s.gpio_shadow.take prev_gpio_end ++
          (List.range (gpio_operations - prev_gpio_end)).map
            (fun k => clockPatternSlot s.clock_gpio (prev_gpio_end + k)) }
  else s

/-- Source `DMAMultiSPI::RegisterDataGPIO` (lines 107-140): grow the
shared timeline first, then delegate pin reservation to the external
`ft::GPIO` collaborator (`return gpio_.AddOutput(gpio);`).  The
collaborator's verdict is the parameter `addOutput_ok`; the data pin
number itself does not enter the timeline state. -/
def RegisterDataGpio (s : EngineState) (data_gpio requested_bytes : Nat)
    (addOutput_ok : Bool) : Bool × EngineState :=
  (addOutput_ok, registerGrow s requested_bytes)

/-- The encoding loop of `SetBufferedByte` (source lines 188-197),
unrolled by iteration count: iteration `k` (k = 0 first, matching
`bit = 0x80 >> k`) applies `applyDataBit` for bit `7 - k` of `data` to
the slot at `2*8*pos + 2*k`.  `setByteAux g data pos n sh` performs
iterations `0, …, n-1` in loop order. -/
def setByteAux (g data pos : Nat) : Nat → List GPIOData → List GPIOData
  | 0, sh => sh
  | k + 1, sh =>
      List.modify (applyDataBit g (data.testBit (7 - k))) (2 * 8 * pos + 2 * k)
        (setByteAux g data pos k sh)

/-- Source `DMAMultiSPI::SetBufferedByte` (lines 186-198): eight loop
iterations starting at slot `2 * 8 * pos`.  The precondition
`assert(pos < serial_byte_size_)` is carried as a hypothesis by the
theorems below. -/
def SetBufferedByte (s : EngineState) (data_gpio pos data : Nat) : EngineState :=
  { s with gpio_shadow := setByteAux data_gpio data pos 8 s.gpio_shadow }

/-- States reachable through the engine's public surface before the
descriptor chain is built: the constructor, any number of
`RegisterDataGPIO` calls (whose state effect is `registerGrow`
regardless of the pin-reservation verdict), and `SetBufferedByte` calls
on a data pin distinct from the clock pin, honouring the source's
`assert(pos < serial_byte_size_)`.  GPIO numbers address one 32-bit
register, hence the `< 32` bounds. -/
inductive Reachable : EngineState → Prop where
  | init (clock : Nat) (hclock : clock < 32) : Reachable (initState clock)
  | register (s : EngineState) (requested_bytes : Nat) (hs : Reachable s) :
      Reachable (registerGrow s requested_bytes)
  | set_byte (s : EngineState) (data_gpio pos data : Nat) (hs : Reachable s)
      (hne : data_gpio ≠ s.clock_gpio) (hg : data_gpio < 32)
      (hpos : pos < s.serial_byte_size) :
      Reachable (SetBufferedByte s data_gpio pos data)

/-! ### Descriptor builder (`DMAMultiSPI::FinishRegistration`) -/

/-- Source line 40: `#define GPIO_SET_OFFSET 0x1C`. -/
def GPIO_SET_OFFSET : Nat := 0x1C

/-- Source line 41: `#define GPIO_CLR_OFFSET 0x28`. -/
def GPIO_CLR_OFFSET : Nat := 0x28

/-- Source line 42: bus address of the GPIO register window. -/
def PHYSICAL_GPIO_BUS : Nat := 0x7E000000 + 0x200000

/-- Byte size of `struct GPIOData`: four `uint32_t` fields. -/
def sizeof_GPIOData : Nat := 16

/-- Byte offset of the `clr` field inside `GPIOData`: three `uint32_t`
fields precede it. -/
def clr_field_offset : Nat := 3 * 4

/-- Source line 145: `const int kMaxOpsPerBlock = (2<<15) / sizeof(GPIOData);`. -/
def kMaxOpsPerBlock : Nat := (2 <<< 15) / sizeof_GPIOData

/-- Source lines 147-148: number of DMA control blocks,
`(gpio_operations + kMaxOpsPerBlock - 1) / kMaxOpsPerBlock`. -/
def control_blocks (gpio_operations : Nat) : Nat :=
  (gpio_operations + kMaxOpsPerBlock - 1) / kMaxOpsPerBlock

/-- Byte offset of control block `i` inside the allocated uncached
block: the `dma_cb` array sits at the start of the allocation
(source line 160). -/
def descriptor_offset (sizeof_dma_cb i : Nat) : Nat := i * sizeof_dma_cb

/-- One DMA control block as programmed by `FinishRegistration` (source
lines 159-176).  The `length` register's two packed halves are kept as
separate fields (`ylength` rows of `xlength` bytes), and the 2-D
destination stride as the signed argument of `DMA_CB_STRIDE_D_STRIDE`;
the exact bit packing of those registers and the `info` flag encoding
come from the external register map (`rpi-dma.h`), which the design
document places out of scope.  `src`, `dst` and `next` are physical
addresses. -/
structure dma_cb where
  src : Nat
  dst : Nat
  ylength : Nat
  xlength : Nat
  d_stride : Int
  s_stride : Int
  next : Nat
deriving DecidableEq

/-- Source `DMAMultiSPI::FinishRegistration`, lines 145-176, as the list
of control blocks it writes.  `phys` is the allocator's
offset-to-physical translation (`UncachedMemBlock_to_physical`),
`sizeof_dma_cb` the byte size of a `dma_cb`.  Control block `i` lives at
offset `i * sizeof_dma_cb`; the slot data area starts after the
`control_blocks` descriptors, and chunk `i` starts `i * kMaxOpsPerBlock`
slots into it (every chunk before the last is full).  The loop links
`previous->next` to the current block, and `cb->next = 0` after the loop
clears the last link. -/
def FinishRegistration (phys : Nat → Nat) (sizeof_dma_cb gpio_operations : Nat) :
    List dma_cb :=
  (List.range (control_blocks gpio_operations)).map (fun i =>
    { src := phys (descriptor_offset sizeof_dma_cb (control_blocks gpio_operations) +
                   i * kMaxOpsPerBlock * sizeof_GPIOData),
      dst := PHYSICAL_GPIO_BUS + GPIO_SET_OFFSET,
      ylength := min kMaxOpsPerBlock (gpio_operations - i * kMaxOpsPerBlock),
      xlength := sizeof_GPIOData,
      d_stride := -16,
      s_stride := 0,
      next :=
        if i + 1 < control_blocks gpio_operations then
          phys (descriptor_offset sizeof_dma_cb (i + 1))
        else 0 })

/-! ### Transfer driver (`DMAMultiSPI::SendBuffers`) -/

/-- The observable actions of `SendBuffers` (source lines 200-217), in
program order. -/
inductive DmaAction where
  | copy_shadow
  | cs_set_end
  | set_cblock
  | cs_program_priority
  | cs_set_active
  | poll_sleep_10
  | cs_abort
  | settle_sleep_100
  | cs_clear_active
  | cs_reset
deriving DecidableEq

/-- Exit condition of the poll loop (source lines 208-211): the loop
continues while `(cs & DMA_CS_ACTIVE) && !(cs & DMA_CS_ERROR)`, so it
exits on a `cs` reading whose ACTIVE bit is clear or whose ERROR bit is
set.  The flag bit positions come from the external register map and
stay abstract. -/
def dma_cs_exit (active_bit error_bit cs : Nat) : Bool :=
  !cs.testBit active_bit || cs.testBit error_bit

/-- Teardown executed after the poll loop, source lines 213-216: abort,
fixed 100 microsecond settle, clear the active bit, reset.  Straight-line
code with no branch on the loop's exit cause. -/
def sendTeardown : List DmaAction :=
  [DmaAction.cs_abort, DmaAction.settle_sleep_100,
   DmaAction.cs_clear_active, DmaAction.cs_reset]

/-- Action trace of one `SendBuffers` call whose poll loop terminates,
driven by the sequence `cs_reads` of values the loop reads from the
`cs` register (one read per iteration).  Lines 202-207 arm and start the
engine, the loop sleeps 10 microseconds per iteration until the first
exiting read, then the unconditional teardown runs. -/
def SendBuffers_trace (active_bit error_bit : Nat) (cs_reads : Nat → Nat)
    (h : ∃ n, dma_cs_exit active_bit error_bit (cs_reads n) = true) : List DmaAction :=
  [DmaAction.copy_shadow, DmaAction.cs_set_end, DmaAction.set_cblock,
   DmaAction.cs_program_priority, DmaAction.cs_set_active] ++
  List.replicate (Nat.find h) DmaAction.poll_sleep_10 ++
  sendTeardown

/-- Return value of `SendBuffers`: the function returns `void`
regardless of how the poll loop exited. -/
def SendBuffers_result (active_bit error_bit : Nat) (cs_reads : Nat → Nat)
    (h : ∃ n, dma_cs_exit active_bit error_bit (cs_reads n) = true) : Unit :=
  ()

/-- The two per-slot invariants of the shared timeline: even slots carry
the clock pin in their clear-mask, odd slots in their set-mask, and no
pin ever sits in both masks of one slot. -/
def SlotsOk (s : EngineState) : Prop :=
  ∀ i d, s.gpio_shadow[i]? = some d →
    (i % 2 = 0 → d.clr.testBit s.clock_gpio = true) ∧
      (i % 2 = 1 → d.set.testBit s.clock_gpio = true) ∧
      ∀ j, ¬(d.set.testBit j = true ∧ d.clr.testBit j = true)

/-- Full state invariant: valid clock pin, buffer length tracking
`bytes_to_gpio_ops` (except before the first real registration, where
no buffer exists at all), and the per-slot invariants. -/
def Inv (s : EngineState) : Prop :=
  s.clock_gpio < 32 ∧
  (s.gpio_shadow.length = bytes_to_gpio_ops s.serial_byte_size ∨
     (s.serial_byte_size = 0 ∧ s.gpio_shadow = [])) ∧
  SlotsOk s

/-- Engine with clock pin 18 after registering one byte of capacity; a
concrete state used to instantiate the reachability hypotheses. -/
def exampleBase : EngineState := registerGrow (initState 18) 1

/-- `exampleBase` after encoding byte `0xA5` on data pin 23 at index 0. -/
def exampleState : EngineState := SetBufferedByte exampleBase 23 0 165

/-! ### Bit-level behaviour of the mask updates -/

theorem testBit_one_shiftLeft (g j : Nat) : (1 <<< g).testBit j = decide (g = j) := by
  rw [Nat.one_shiftLeft]; exact Nat.testBit_two_pow

theorem pinBitSet_testBit (m g j : Nat) :
    (pinBitSet m g).testBit j = (m.testBit j || decide (g = j)) := by
  simp only [pinBitSet, Nat.testBit_or, testBit_one_shiftLeft]

theorem pinBitClear_testBit (m g j : Nat) :
    (pinBitClear m g).testBit j
      = (m.testBit j && ((decide (j < 32)) ^^ (decide (g = j)))) := by
  have h32 : (0xFFFFFFFF : Nat) = 2 ^ 32 - 1 := by norm_num
  simp only [pinBitClear, h32, Nat.testBit_and, Nat.testBit_xor,
    Nat.testBit_two_pow_sub_one, testBit_one_shiftLeft]

theorem pinBitSet_testBit_self (m g : Nat) : (pinBitSet m g).testBit g = true := by
  simp [pinBitSet_testBit]

theorem pinBitSet_testBit_ne (m g j : Nat) (h : g ≠ j) :
    (pinBitSet m g).testBit j = m.testBit j := by
  simp [pinBitSet_testBit, h]

theorem pinBitClear_testBit_self (m g : Nat) (hg : g < 32) :
    (pinBitClear m g).testBit g = false := by
  simp [pinBitClear_testBit, hg]

theorem pinBitClear_testBit_ne (m g j : Nat) (hj : j < 32) (h : g ≠ j) :
    (pinBitClear m g).testBit j = m.testBit j := by
  simp [pinBitClear_testBit, hj, h]

/-- A data-bit write at pin `g` leaves both masks of the slot unchanged
at every other pin position below 32. -/
theorem applyDataBit_testBit_ne (g : Nat) (level : Bool) (d : GPIOData) (j : Nat)
    (hj : j < 32) (h : g ≠ j) :
    (applyDataBit g level d).set.testBit j = d.set.testBit j ∧
      (applyDataBit g level d).clr.testBit j = d.clr.testBit j := by
  cases level <;>
    simp [applyDataBit, pinBitSet_testBit_ne _ _ _ h, pinBitClear_testBit_ne _ _ _ hj h]

/-- A data-bit write drives exactly the written level: the pin appears
in the set-mask iff the bit is 1 and in the clear-mask iff it is 0. -/
theorem applyDataBit_testBit_self (g : Nat) (level : Bool) (d : GPIOData) (hg : g < 32) :
    (applyDataBit g level d).set.testBit g = level ∧
      (applyDataBit g level d).clr.testBit g = !level := by
  cases level <;>
    simp [applyDataBit, pinBitSet_testBit_self, pinBitClear_testBit_self _ _ hg]

/-- A data-bit write never leaves a pin in both masks of a slot,
provided no pin was in both masks before. -/
theorem applyDataBit_disjoint (g : Nat) (level : Bool) (d : GPIOData) (hg : g < 32)
    (hd : ∀ j, ¬(d.set.testBit j = true ∧ d.clr.testBit j = true)) (j : Nat) :
    ¬((applyDataBit g level d).set.testBit j = true ∧
      (applyDataBit g level d).clr.testBit j = true) := by
  intro hc
  rcases Nat.lt_or_ge j 32 with hj | hj
  · rcases Decidable.em (g = j) with rfl | hne
    · have hself := applyDataBit_testBit_self g level d hg
      cases level <;> simp_all
    · have hp := applyDataBit_testBit_ne g level d j hj hne
      exact hd j ⟨hp.1.symm.trans hc.1, hp.2.symm.trans hc.2⟩
  · have hgj : g ≠ j := by omega
    have hj' : ¬(j < 32) := by omega
    cases level
    · have hzero : (applyDataBit g false d).set.testBit j = false := by
        simp [applyDataBit, pinBitClear_testBit, hj', hgj]
      rw [hzero] at hc
      exact absurd hc.1 (by simp)
    · have hzero : (applyDataBit g true d).clr.testBit j = false := by
        simp [applyDataBit, pinBitClear_testBit, hj', hgj]
      rw [hzero] at hc
      exact absurd hc.2 (by simp)

/-! ### Per-slot behaviour of the `SetBufferedByte` loop -/

theorem setByteAux_length (g data pos : Nat) (k : Nat) (sh : List GPIOData) :
    (setByteAux g data pos k sh).length = sh.length := by
  induction k with
  | zero => rfl
  | succ k ih => simp [setByteAux, List.length_modify, ih]

/-- Slots whose index is not among the loop's first `k` targets are left
untouched. -/
theorem setByteAux_getElem?_ne (g data pos k : Nat) (sh : List GPIOData) (i : Nat)
    (h : ∀ j, j < k → i ≠ 2 * 8 * pos + 2 * j) :
    (setByteAux g data pos k sh)[i]? = sh[i]? := by
  induction k with
  | zero => rfl
  | succ k ih =>
      rw [setByteAux, List.getElem?_modify_ne _ _ (Ne.symm (h k (by omega)))]
      exact ih (fun j hj => h j (by omega))

/-- Loop target `j < k`: the slot at `2*8*pos + 2*j` is rewritten by
`applyDataBit` for bit `7 - j` of `data`. -/
theorem setByteAux_getElem?_hit (g data pos k : Nat) (sh : List GPIOData) (j : Nat)
    (hj : j < k) :
    (setByteAux g data pos k sh)[2 * 8 * pos + 2 * j]?
      = (sh[2 * 8 * pos + 2 * j]?).map (applyDataBit g (data.testBit (7 - j))) := by
  induction k with
  | zero => omega
  | succ k ih =>
      rw [setByteAux]
      rcases Decidable.em (j = k) with rfl | hne
      · rw [List.getElem?_modify_eq,
          setByteAux_getElem?_ne g data pos j sh _ (fun j' hj' => by omega)]
        cases hx : sh[2 * 8 * pos + 2 * j]? <;> simp [hx]
      · rw [List.getElem?_modify_ne _ _ (by omega)]
        exact ih (by omega)

/-! ### Per-slot behaviour of timeline growth -/

theorem registerGrow_clock_gpio (s : EngineState) (b' : Nat) :
    (registerGrow s b').clock_gpio = s.clock_gpio := by
  simp only [registerGrow]; split <;> rfl

theorem registerGrow_serial_byte_size (s : EngineState) (b' : Nat) :
    (registerGrow s b').serial_byte_size = max s.serial_byte_size b' := by
  simp only [registerGrow]
  split <;> simp <;> omega

theorem registerGrow_length (s : EngineState) (b' : Nat)
    (hlen : bytes_to_gpio_ops s.serial_byte_size - 1 ≤ s.gpio_shadow.length)
    (hb : s.serial_byte_size < b') :
    (registerGrow s b').gpio_shadow.length = bytes_to_gpio_ops b' := by
  simp only [registerGrow, if_pos hb]
  simp only [List.length_append, List.length_take, List.length_map, List.length_range]
  unfold bytes_to_gpio_ops at *
  omega

/-- Growth leaves every slot strictly below the old buffer's final index
untouched. -/
theorem registerGrow_getElem?_old (s : EngineState) (b' : Nat) (i : Nat)
    (hlen : bytes_to_gpio_ops s.serial_byte_size - 1 ≤ s.gpio_shadow.length)
    (hi : i < bytes_to_gpio_ops s.serial_byte_size - 1) :
    (registerGrow s b').gpio_shadow[i]? = s.gpio_shadow[i]? := by
  simp only [registerGrow]
  split
  · have h1 : i < (s.gpio_shadow.take (bytes_to_gpio_ops s.serial_byte_size - 1)).length := by
      rw [List.length_take]; omega
    rw [List.getElem?_append_left h1, List.getElem?_take_of_lt hi]
  · rfl

/-- Growth rewrites every slot from the old buffer's final index up to
the new end with the alternating clock pattern. -/
theorem registerGrow_getElem?_new (s : EngineState) (b' : Nat)
    (hlen : bytes_to_gpio_ops s.serial_byte_size - 1 ≤ s.gpio_shadow.length)
    (hb : s.serial_byte_size < b') (i : Nat)
    (hi1 : bytes_to_gpio_ops s.serial_byte_size - 1 ≤ i)
    (hi2 : i < bytes_to_gpio_ops b') :
    (registerGrow s b').gpio_shadow[i]? = some (clockPatternSlot s.clock_gpio i) := by
  simp only [registerGrow, if_pos hb]
  have htake : (s.gpio_shadow.take (bytes_to_gpio_ops s.serial_byte_size - 1)).length
      = bytes_to_gpio_ops s.serial_byte_size - 1 := by
    rw [List.length_take]; omega
  have hge : (s.gpio_shadow.take (bytes_to_gpio_ops s.serial_byte_size - 1)).length ≤ i := by
    rw [htake]; omega
  rw [List.getElem?_append_right hge, htake, List.getElem?_map]
  rw [List.getElem?_range (by unfold bytes_to_gpio_ops at *; omega)]
  show some (clockPatternSlot s.clock_gpio
      (bytes_to_gpio_ops s.serial_byte_size - 1 + (i - (bytes_to_gpio_ops s.serial_byte_size - 1))))
    = some (clockPatternSlot s.clock_gpio i)
  congr 2
  omega

/-! ### The clock pre-pattern and mask-disjointness invariants -/

theorem clockPatternSlot_ok (clock i : Nat) :
    (i % 2 = 0 → (clockPatternSlot clock i).clr.testBit clock = true) ∧
      (i % 2 = 1 → (clockPatternSlot clock i).set.testBit clock = true) ∧
      ∀ j, ¬((clockPatternSlot clock i).set.testBit j = true ∧
             (clockPatternSlot clock i).clr.testBit j = true) := by
  unfold clockPatternSlot
  rcases Nat.mod_two_eq_zero_or_one i with h | h <;>
    simp [h, testBit_one_shiftLeft, GPIOData.zero]

/-- A freshly written pattern slot carries no bit of any pin other than
the clock pin, in either mask. -/
theorem clockPatternSlot_no_data (clock i j : Nat) (h : j ≠ clock) :
    (clockPatternSlot clock i).set.testBit j = false ∧
      (clockPatternSlot clock i).clr.testBit j = false := by
  have h1 : (1 <<< clock).testBit j = false := by
    rw [testBit_one_shiftLeft]
    simp [Ne.symm h]
  unfold clockPatternSlot
  split <;> simp [GPIOData.zero, h1]

theorem reachable_inv (s : EngineState) (h : Reachable s) : Inv s := by
  induction h with
  | init clock hclock =>
      refine ⟨hclock, Or.inr ⟨rfl, rfl⟩, ?_⟩
      intro i d hd
      simp [initState] at hd
  | register s b hs ih =>
      obtain ⟨hclock, hlen, hslots⟩ := ih
      have hclk' := registerGrow_clock_gpio s b
      by_cases hb : s.serial_byte_size < b
      · have hlen0 : bytes_to_gpio_ops s.serial_byte_size - 1 ≤ s.gpio_shadow.length := by
          rcases hlen with h | ⟨h0, hnil⟩
          · omega
          · rw [hnil]; simp [h0, bytes_to_gpio_ops]
        refine ⟨by rw [hclk']; exact hclock, Or.inl ?_, ?_⟩
        · rw [registerGrow_length s b hlen0 hb, registerGrow_serial_byte_size]
          unfold bytes_to_gpio_ops
          omega
        · intro i d hd
          rw [hclk']
          rcases Nat.lt_or_ge i (bytes_to_gpio_ops s.serial_byte_size - 1) with hi | hi
          · rw [registerGrow_getElem?_old s b i hlen0 hi] at hd
            exact hslots i d hd
          · have hlen' := registerGrow_length s b hlen0 hb
            have hx : i < (registerGrow s b).gpio_shadow.length := by
              by_contra h'
              rw [List.getElem?_eq_none (by omega)] at hd
              exact Option.noConfusion hd
            have hi2 : i < bytes_to_gpio_ops b := by omega
            rw [registerGrow_getElem?_new s b hlen0 hb i hi hi2] at hd
            injection hd with hd
            subst hd
            exact clockPatternSlot_ok s.clock_gpio i
      · have heq : registerGrow s b = s := by
          simp only [registerGrow]
          rw [if_neg (by omega)]
        rw [heq]
        exact ⟨hclock, hlen, hslots⟩
  | set_byte s g pos data hs hne hg hpos ih =>
      obtain ⟨hclock, hlen, hslots⟩ := ih
      refine ⟨hclock, ?_, ?_⟩
      · rcases hlen with h | ⟨h0, hnil⟩
        · left
          show (setByteAux g data pos 8 s.gpio_shadow).length
              = bytes_to_gpio_ops s.serial_byte_size
          rw [setByteAux_length]
          exact h
        · exact absurd hpos (by omega)
      · intro i d hd
        rcases Classical.em (∃ j, j < 8 ∧ i = 2 * 8 * pos + 2 * j) with ⟨j, hj8, rfl⟩ | hmiss
        · rw [show (SetBufferedByte s g pos data).gpio_shadow
                = setByteAux g data pos 8 s.gpio_shadow from rfl,
            setByteAux_getElem?_hit g data pos 8 s.gpio_shadow j hj8] at hd
          obtain ⟨d0, hd0, rfl⟩ := Option.map_eq_some'.mp hd
          obtain ⟨he, _, hdis⟩ := hslots _ d0 hd0
          refine ⟨?_, ?_, applyDataBit_disjoint g _ d0 hg hdis⟩
          · intro _
            show (applyDataBit g (data.testBit (7 - j)) d0).clr.testBit s.clock_gpio = true
            rw [(applyDataBit_testBit_ne g (data.testBit (7 - j)) d0 s.clock_gpio hclock hne).2]
            exact he (by omega)
          · intro hodd
            omega
        · have hsame : (SetBufferedByte s g pos data).gpio_shadow[i]? = s.gpio_shadow[i]? := by
            apply setByteAux_getElem?_ne
            intro j hj hEq
            exact hmiss ⟨j, hj, hEq⟩
          rw [hsame] at hd
          exact hslots i d hd

/-- Frame property of one `SetBufferedByte` call: at every slot, the
bits of any pin position `j < 32` other than the calling pin are
untouched in both masks. -/
theorem SetBufferedByte_other_pin (s : EngineState) (g pos data j : Nat)
    (hj : j < 32) (hne : g ≠ j) (idx : Nat) :
    ((SetBufferedByte s g pos data).gpio_shadow[idx]?).map
        (fun d => (d.set.testBit j, d.clr.testBit j))
      = (s.gpio_shadow[idx]?).map (fun d => (d.set.testBit j, d.clr.testBit j)) := by
  rcases Classical.em (∃ k, k < 8 ∧ idx = 2 * 8 * pos + 2 * k) with ⟨k, hk8, rfl⟩ | hmiss
  · have hhit : (SetBufferedByte s g pos data).gpio_shadow[2 * 8 * pos + 2 * k]?
        = (s.gpio_shadow[2 * 8 * pos + 2 * k]?).map (applyDataBit g (data.testBit (7 - k))) :=
      setByteAux_getElem?_hit g data pos 8 s.gpio_shadow k hk8
    rw [hhit]
    cases hx : s.gpio_shadow[2 * 8 * pos + 2 * k]? with
    | none => rfl
    | some d0 =>
        have hp := applyDataBit_testBit_ne g (data.testBit (7 - k)) d0 j hj hne
        simp [hp.1, hp.2]
  · have hsame : (SetBufferedByte s g pos data).gpio_shadow[idx]? = s.gpio_shadow[idx]? :=
      setByteAux_getElem?_ne g data pos 8 s.gpio_shadow idx (fun k hk hEq => hmiss ⟨k, hk, hEq⟩)
    rw [hsame]

/-! ### Concrete states used to witness the reachability hypotheses -/

theorem exampleBase_reachable : Reachable exampleBase :=
  Reachable.register _ 1 (Reachable.init 18 (by decide))

theorem exampleState_reachable : Reachable exampleState :=
  Reachable.set_byte exampleBase 23 0 165 exampleBase_reachable
    (by decide) (by decide) (by decide)

/-! ### Claim C4 -/

/-- Claim C4: in every reachable timeline state, every even-indexed slot
carries the clock pin in its clear-mask and every odd-indexed slot
carries it in its set-mask (the pattern established at growth time), and
a `SetBufferedByte` call on a data pin distinct from the clock pin never
changes the clock pin's bit in any slot's masks. -/
theorem clock_pattern_invariant :
    (∀ s : EngineState, Reachable s → ∀ (i : Nat) (d : GPIOData),
       s.gpio_shadow[i]? = some d →
       (i % 2 = 0 → d.clr.testBit s.clock_gpio = true) ∧
       (i % 2 = 1 → d.set.testBit s.clock_gpio = true)) ∧
    (∀ (s : EngineState) (g pos data : Nat), Reachable s → g ≠ s.clock_gpio → ∀ i : Nat,
       ((SetBufferedByte s g pos data).gpio_shadow[i]?).map
           (fun d : GPIOData => (d.set.testBit s.clock_gpio, d.clr.testBit s.clock_gpio))
         = (s.gpio_shadow[i]?).map
           (fun d : GPIOData => (d.set.testBit s.clock_gpio, d.clr.testBit s.clock_gpio))) := by
  constructor
  · intro s hs i d hd
    obtain ⟨-, -, hslots⟩ := reachable_inv s hs
    obtain ⟨he, ho, -⟩ := hslots i d hd
    exact ⟨he, ho⟩
  · intro s g pos data hs hne i
    obtain ⟨hclock, -, -⟩ := reachable_inv s hs
    exact SetBufferedByte_other_pin s g pos data s.clock_gpio hclock hne i

/-- Witness for C4: the clock-pattern invariant evaluated on the
concrete reachable state `exampleState` at slot 1. -/
theorem clock_pattern_invariant_witness :
    ((1 : Nat) % 2 = 0 → Nat.testBit (GPIOData.clr ⟨262144, 0, 0, 0⟩) 18 = true) ∧
    ((1 : Nat) % 2 = 1 → Nat.testBit (GPIOData.set ⟨262144, 0, 0, 0⟩) 18 = true) :=
  clock_pattern_invariant.1 exampleState exampleState_reachable 1 ⟨262144, 0, 0, 0⟩ (by decide)

/-! ### Claim C5 -/

/-- Claim C5: in every reachable timeline state, no pin's bit is present
in both the set-mask and the clear-mask of the same slot. -/
theorem slot_masks_disjoint (s : EngineState) (h : Reachable s) :
    ∀ (i : Nat) (d : GPIOData), s.gpio_shadow[i]? = some d →
      ∀ j : Nat, ¬(d.set.testBit j = true ∧ d.clr.testBit j = true) := by
  intro i d hd j
  obtain ⟨-, -, hslots⟩ := reachable_inv s h
  exact (hslots i d hd).2.2 j

/-- Witness for C5: mask disjointness on the concrete reachable state
`exampleState`, slot 0, pin 23. -/
theorem slot_masks_disjoint_witness :
    ¬(Nat.testBit (GPIOData.set ⟨8388608, 0, 0, 262144⟩) 23 = true ∧
      Nat.testBit (GPIOData.clr ⟨8388608, 0, 0, 262144⟩) 23 = true) :=
  slot_masks_disjoint exampleState exampleState_reachable 0 ⟨8388608, 0, 0, 262144⟩
    (by decide) 23

/-! ### Claim C2 -/

/-- Claim C2: growing the timeline from an already-encoded capacity
`b > 0` to `b' > b` preserves every slot with index strictly below
`16*b` (the encoded prefix, clock pattern included), and every slot with
index in `16*b .. 16*b'` carries exactly the alternating clock
pre-pattern with no channel data bit in either mask. -/
theorem growth_preservation (s : EngineState) (hs : Reachable s)
    (data_gpio b' : Nat) (ok : Bool)
    (hb0 : 0 < s.serial_byte_size) (hb : s.serial_byte_size < b') :
    (∀ i : Nat, i < 16 * s.serial_byte_size →
        (RegisterDataGpio s data_gpio b' ok).2.gpio_shadow[i]? = s.gpio_shadow[i]?) ∧
    (∀ i : Nat, 16 * s.serial_byte_size ≤ i → i ≤ 16 * b' →
        (RegisterDataGpio s data_gpio b' ok).2.gpio_shadow[i]?
            = some (clockPatternSlot s.clock_gpio i) ∧
        ∀ j : Nat, j ≠ s.clock_gpio →
          (clockPatternSlot s.clock_gpio i).set.testBit j = false ∧
          (clockPatternSlot s.clock_gpio i).clr.testBit j = false) := by
  obtain ⟨-, hlen, -⟩ := reachable_inv s hs
  have hlen0 : bytes_to_gpio_ops s.serial_byte_size - 1 ≤ s.gpio_shadow.length := by
    rcases hlen with hl | ⟨h0, -⟩
    · omega
    · omega
  constructor
  · intro i hi
    exact registerGrow_getElem?_old s b' i hlen0 (by unfold bytes_to_gpio_ops; omega)
  · intro i hi1 hi2
    refine ⟨registerGrow_getElem?_new s b' hlen0 hb i
        (by unfold bytes_to_gpio_ops; omega) (by unfold bytes_to_gpio_ops; omega),
      fun j hj => clockPatternSlot_no_data s.clock_gpio i j hj⟩

/-- Witness for C2: growing `exampleState` (capacity 1, byte 0xA5
encoded) to capacity 4 leaves slot 0 unchanged and patterns slot 20. -/
theorem growth_preservation_witness :
    (RegisterDataGpio exampleState 24 4 true).2.gpio_shadow[0]?
        = exampleState.gpio_shadow[0]? ∧
    (RegisterDataGpio exampleState 24 4 true).2.gpio_shadow[20]?
        = some (clockPatternSlot exampleState.clock_gpio 20) :=
  ⟨(growth_preservation exampleState exampleState_reachable 24 4 true
      (by decide) (by decide)).1 0 (by decide),
   ((growth_preservation exampleState exampleState_reachable 24 4 true
      (by decide) (by decide)).2 20 (by decide) (by decide)).1⟩

/-! ### Claim C3 -/

/-- Counterexample to C3 as stated: on a fresh engine, registering a
channel with byte capacity 0 leaves the largest registered capacity at
`b = 0` and the timeline with 0 slots, not `0*16 + 1 = 1`. -/
theorem slot_count_cex :
    ¬((RegisterDataGpio (initState 18) 10 0 true).2.gpio_shadow.length
        = (RegisterDataGpio (initState 18) 10 0 true).2.serial_byte_size * 16 + 1) := by
  decide

/-- Amended C3: after any register/encode history, the engine's
capacity equals the maximum capacity passed to `RegisterDataGPIO` so
far, and whenever that maximum is positive the timeline holds exactly
`b*16 + 1` slots.  (Before the first positive registration the buffer
is still unallocated, i.e. empty.) -/
theorem slot_count_amended :
    (∀ s : EngineState, Reachable s → 0 < s.serial_byte_size →
        s.gpio_shadow.length = s.serial_byte_size * 16 + 1) ∧
    (∀ (clock : Nat) (reqs : List Nat),
        (reqs.foldl registerGrow (initState clock)).serial_byte_size
          = reqs.foldl max 0) := by
  have hfold : ∀ (reqs : List Nat) (s : EngineState),
      (reqs.foldl registerGrow s).serial_byte_size
        = reqs.foldl max s.serial_byte_size := by
    intro reqs
    induction reqs with
    | nil => intro s; rfl
    | cons a t ih =>
        intro s
        simp only [List.foldl_cons]
        rw [ih, registerGrow_serial_byte_size]
  constructor
  · intro s hs hpos
    obtain ⟨-, hlen, -⟩ := reachable_inv s hs
    rcases hlen with hl | ⟨h0, -⟩
    · unfold bytes_to_gpio_ops at hl; omega
    · omega
  · intro clock reqs
    exact hfold reqs (initState clock)

/-- Witness for amended C3: `exampleState` has capacity 1 and 17 slots. -/
theorem slot_count_amended_witness :
    exampleState.gpio_shadow.length = exampleState.serial_byte_size * 16 + 1 :=
  slot_count_amended.1 exampleState exampleState_reachable (by decide)

/-! ### Claim C6 -/

/-- Claim C6: encoding `B1` on pin `P1` at index `i` and then `B2` on a
different pin `P2` at index `i` leaves `P1`'s bit in every slot's masks
exactly as the first call left it; moreover any single `SetBufferedByte`
call changes no pin bit position other than the calling pin's. -/
theorem set_byte_non_interference (s : EngineState) (g1 g2 i d1 d2 : Nat)
    (hne : g1 ≠ g2) (hg1 : g1 < 32) (hi : i < s.serial_byte_size) :
    (∀ idx : Nat,
       ((SetBufferedByte (SetBufferedByte s g1 i d1) g2 i d2).gpio_shadow[idx]?).map
           (fun d : GPIOData => (d.set.testBit g1, d.clr.testBit g1))
         = ((SetBufferedByte s g1 i d1).gpio_shadow[idx]?).map
           (fun d : GPIOData => (d.set.testBit g1, d.clr.testBit g1))) ∧
    (∀ (j idx : Nat), j < 32 → j ≠ g2 →
       ((SetBufferedByte (SetBufferedByte s g1 i d1) g2 i d2).gpio_shadow[idx]?).map
           (fun d : GPIOData => (d.set.testBit j, d.clr.testBit j))
         = ((SetBufferedByte s g1 i d1).gpio_shadow[idx]?).map
           (fun d : GPIOData => (d.set.testBit j, d.clr.testBit j))) := by
  constructor
  · intro idx
    exact SetBufferedByte_other_pin (SetBufferedByte s g1 i d1) g2 i d2 g1 hg1
      (Ne.symm hne) idx
  · intro j idx hj hjne
    exact SetBufferedByte_other_pin (SetBufferedByte s g1 i d1) g2 i d2 j hj
      (Ne.symm hjne) idx

/-- Witness for C6: concrete non-interference of pin 24's encoding with
pin 23's bits at slot 0 on `exampleBase`. -/
theorem set_byte_non_interference_witness :
    ((SetBufferedByte (SetBufferedByte exampleBase 23 0 165) 24 0 90).gpio_shadow[0]?).map
        (fun d : GPIOData => (d.set.testBit 23, d.clr.testBit 23))
      = ((SetBufferedByte exampleBase 23 0 165).gpio_shadow[0]?).map
        (fun d : GPIOData => (d.set.testBit 23, d.clr.testBit 23)) :=
  (set_byte_non_interference exampleBase 23 24 0 165 90
      (by decide) (by decide) (by decide)).1 0

/-! ### Claim C1 -/

/-- Counterexample to C1 as stated: with clock 18, capacity 1, after
`SetBufferedByte(23, 0, 0x80)` the first bit (msb, a 1) corresponds to
the slot pair 0/1.  The claim requires pin 23's bit to be set in the
set-masks of BOTH slots; it is set in slot 0 (the data-slot) but not in
slot 1 (the clock-edge slot), which the code leaves untouched. -/
theorem set_byte_both_slots_cex :
    ((SetBufferedByte (registerGrow (initState 18) 1) 23 0 128).gpio_shadow[0]?).map
        (fun d : GPIOData => d.set.testBit 23) = some true ∧
    ¬(((SetBufferedByte (registerGrow (initState 18) 1) 23 0 128).gpio_shadow[1]?).map
        (fun d : GPIOData => d.set.testBit 23) = some true) := by
  decide

/-- Amended C1: for each of the 8 bits of `value`, most-significant
first, `SetBufferedByte` writes the pin-level into the data-slot only
(slot `16*pos + 2*k` for bit `7-k`): bit 1 sets the pin in that slot's
set-mask and removes it from its clear-mask, bit 0 the converse.  The
companion clock-edge slot `16*pos + 2*k + 1` is left entirely
unchanged — the data line simply holds its level across the clock
edge. -/
theorem set_byte_data_slot_only (s : EngineState) (g pos data : Nat)
    (hg : g < 32) (hpos : pos < s.serial_byte_size) :
    ∀ k : Nat, k < 8 →
      ((SetBufferedByte s g pos data).gpio_shadow[2 * 8 * pos + 2 * k + 1]?
          = s.gpio_shadow[2 * 8 * pos + 2 * k + 1]?) ∧
      ∀ d : GPIOData,
        (SetBufferedByte s g pos data).gpio_shadow[2 * 8 * pos + 2 * k]? = some d →
          d.set.testBit g = data.testBit (7 - k) ∧
          d.clr.testBit g = !data.testBit (7 - k) := by
  intro k hk
  constructor
  · exact setByteAux_getElem?_ne g data pos 8 s.gpio_shadow _ (fun j hj => by omega)
  · intro d hd
    have hhit : (SetBufferedByte s g pos data).gpio_shadow[2 * 8 * pos + 2 * k]?
        = (s.gpio_shadow[2 * 8 * pos + 2 * k]?).map (applyDataBit g (data.testBit (7 - k))) :=
      setByteAux_getElem?_hit g data pos 8 s.gpio_shadow k hk
    rw [hhit] at hd
    obtain ⟨d0, -, rfl⟩ := Option.map_eq_some'.mp hd
    exact applyDataBit_testBit_self g (data.testBit (7 - k)) d0 hg

/-- Witness for amended C1: on `exampleBase` with byte `0x80` on pin 23,
the clock-edge slot 1 is unchanged by the encoding call. -/
theorem set_byte_data_slot_only_witness :
    (SetBufferedByte exampleBase 23 0 128).gpio_shadow[1]?
      = exampleBase.gpio_shadow[1]? :=
  ((set_byte_data_slot_only exampleBase 23 0 128 (by decide) (by decide)) 0 (by decide)).1

/-! ### Claim C7 -/

/-- Claim C7: on a frozen timeline of `N > 0` slots the descriptor
builder creates exactly `ceil(N / kMaxOpsPerBlock)` control blocks; each
block except the last links `next` to the physical address of the
immediately following block (at offset `(i+1) * sizeof(dma_cb)` in the
allocation), and the last block's `next` is 0. -/
theorem descriptor_chain (phys : Nat → Nat) (sizeof_dma_cb N : Nat) (hN : 0 < N) :
    (FinishRegistration phys sizeof_dma_cb N).length = control_blocks N ∧
    control_blocks N = (N + kMaxOpsPerBlock - 1) / kMaxOpsPerBlock ∧
    ((control_blocks N - 1) * kMaxOpsPerBlock < N ∧
      N ≤ control_blocks N * kMaxOpsPerBlock) ∧
    (∀ (i : Nat) (cb : dma_cb),
       (FinishRegistration phys sizeof_dma_cb N)[i]? = some cb →
       (i + 1 < control_blocks N →
          cb.next = phys (descriptor_offset sizeof_dma_cb (i + 1))) ∧
       (i + 1 = control_blocks N → cb.next = 0)) := by
  have hk : kMaxOpsPerBlock = 4096 := rfl
  refine ⟨by simp [FinishRegistration], rfl, ⟨?_, ?_⟩, ?_⟩
  · unfold control_blocks
    rw [hk]
    omega
  · unfold control_blocks
    rw [hk]
    omega
  · intro i cb hcb
    rw [FinishRegistration, List.getElem?_map] at hcb
    rcases Nat.lt_or_ge i (control_blocks N) with hi | hi
    · rw [List.getElem?_range hi] at hcb
      simp only [Option.map_some'] at hcb
      injection hcb with hcb
      subst hcb
      constructor
      · intro hlt
        simp [if_pos hlt]
      · intro heq
        have hnlt : ¬(i + 1 < control_blocks N) := by omega
        simp [if_neg hnlt]
    · rw [List.getElem?_eq_none (by simpa using hi)] at hcb
      exact Option.noConfusion hcb

/-- Witness for C7: a 5000-slot timeline needs two descriptors. -/
theorem descriptor_chain_witness :
    (FinishRegistration id 32 5000).length = control_blocks 5000 :=
  (descriptor_chain id 32 5000 (by decide)).1

/-! ### Claim C8 -/

/-- Counterexample to C8 as stated: the destination 2-D stride the code
programs is `-16` (`DMA_CB_STRIDE_D_STRIDE(-16)`), whereas the negative
byte offset from the pin-set register to the pin-clear register is
`-(0x28 - 0x1C) = -12`. -/
theorem descriptor_stride_cex :
    ((FinishRegistration id 32 17)[0]?).map (fun cb : dma_cb => cb.d_stride)
        = some (-16) ∧
    ¬((-16 : Int) = -((GPIO_CLR_OFFSET : Int) - (GPIO_SET_OFFSET : Int))) := by
  decide

/-- Amended C8: every descriptor's destination stride is the negative of
the slot's byte size, `-sizeof(GPIOData) = -16` (one 2-D row covers the
whole 16-byte slot starting at the pin-set register, so the stride
rewinds the destination to the pin-set register for the next row); the
set and clear fields still land on the two physical registers because
the destination is the pin-set register and the `clr` field sits 12
bytes into the slot, exactly the set-to-clear register offset. -/
theorem descriptor_stride_amended (phys : Nat → Nat) (sizeof_dma_cb N : Nat) :
    ∀ i : Nat,
      ((FinishRegistration phys sizeof_dma_cb N)[i]?).map
          (fun cb : dma_cb => (cb.d_stride, cb.xlength, cb.dst, cb.dst + clr_field_offset))
        = if i < control_blocks N then
            some (-(sizeof_GPIOData : Int), sizeof_GPIOData,
                  PHYSICAL_GPIO_BUS + GPIO_SET_OFFSET,
                  PHYSICAL_GPIO_BUS + GPIO_CLR_OFFSET)
          else none := by
  intro i
  rw [FinishRegistration, List.getElem?_map]
  rcases Nat.lt_or_ge i (control_blocks N) with hi | hi
  · rw [List.getElem?_range hi, if_pos hi]
    simp only [Option.map_some']
    refine congrArg some ?_
    refine Prod.ext (by decide) (Prod.ext rfl (Prod.ext rfl (by decide)))
  · rw [List.getElem?_eq_none (by simpa using hi), if_neg (by omega)]
    rfl

/-! ### Claim C9 -/

theorem dma_cs_exit_true_iff (a e v : Nat) :
    dma_cs_exit a e v = true ↔ (v.testBit a = false ∨ v.testBit e = true) := by
  cases hva : v.testBit a <;> cases hve : v.testBit e <;> simp [dma_cs_exit, hva, hve]

theorem dma_cs_exit_false_iff (a e v : Nat) :
    dma_cs_exit a e v = false ↔ (v.testBit a = true ∧ v.testBit e = false) := by
  cases hva : v.testBit a <;> cases hve : v.testBit e <;> simp [dma_cs_exit, hva, hve]

theorem drop_replicate_append {α : Type} (n : Nat) (x : α) (l : List α) :
    (List.replicate n x ++ l).drop n = l := by
  induction n with
  | zero => rfl
  | succ n ih =>
      rw [List.replicate_succ, List.cons_append, List.drop_succ_cons]
      exact ih

/-- Claim C9: whenever the `SendBuffers` poll loop terminates, it does
so because the ACTIVE bit read as clear or the ERROR bit read as set
(every earlier read had ACTIVE set and ERROR clear); after the loop the
driver always runs the same fixed abort / settle-wait / clear-active /
reset teardown, and the call returns the same `void` result no matter
which condition ended the loop. -/
theorem send_teardown_uniform (active_bit error_bit : Nat) (cs_reads : Nat → Nat)
    (h : ∃ n, dma_cs_exit active_bit error_bit (cs_reads n) = true) :
    ((cs_reads (Nat.find h)).testBit active_bit = false ∨
       (cs_reads (Nat.find h)).testBit error_bit = true) ∧
    (∀ m : Nat, m < Nat.find h →
       (cs_reads m).testBit active_bit = true ∧
       (cs_reads m).testBit error_bit = false) ∧
    (SendBuffers_trace active_bit error_bit cs_reads h).drop (5 + Nat.find h)
        = sendTeardown ∧
    sendTeardown = [DmaAction.cs_abort, DmaAction.settle_sleep_100,
        DmaAction.cs_clear_active, DmaAction.cs_reset] ∧
    (∀ (cs_reads' : Nat → Nat)
        (h' : ∃ n, dma_cs_exit active_bit error_bit (cs_reads' n) = true),
       SendBuffers_result active_bit error_bit cs_reads' h'
         = SendBuffers_result active_bit error_bit cs_reads h) := by
  refine ⟨?_, ?_, ?_, rfl, fun r' h' => rfl⟩
  · exact (dma_cs_exit_true_iff _ _ _).mp (Nat.find_spec h)
  · intro m hm
    have hmin := Nat.find_min h hm
    rw [Bool.not_eq_true] at hmin
    exact (dma_cs_exit_false_iff _ _ _).mp hmin
  · have h5 : (SendBuffers_trace active_bit error_bit cs_reads h).drop 5
        = List.replicate (Nat.find h) DmaAction.poll_sleep_10 ++ sendTeardown := rfl
    rw [← List.drop_drop, h5, drop_replicate_append]

/-- Witness for C9: the teardown sequence produced on a run whose very
first `cs` read exits the loop. -/
theorem send_teardown_uniform_witness :
    sendTeardown = [DmaAction.cs_abort, DmaAction.settle_sleep_100,
        DmaAction.cs_clear_active, DmaAction.cs_reset] :=
  (send_teardown_uniform 0 1 (fun _ => 0) ⟨0, by decide⟩).2.2.2.1

/-! ### Claim C10 -/

/-- Claim C10: registration is not atomic with respect to pin
reservation failure — the timeline growth happens before the external
pin reservation is consulted, so a failing `RegisterDataGPIO` call
returns failure while the enlarged timeline (new capacity, new buffer
length, extended clock pattern) persists, identical to the state a
successful call would leave. -/
theorem register_growth_before_reservation (s : EngineState) (hs : Reachable s)
    (data_gpio b' : Nat) (hb : s.serial_byte_size < b') :
    (RegisterDataGpio s data_gpio b' false).1 = false ∧
    (RegisterDataGpio s data_gpio b' false).2 = registerGrow s b' ∧
    (RegisterDataGpio s data_gpio b' false).2 = (RegisterDataGpio s data_gpio b' true).2 ∧
    (RegisterDataGpio s data_gpio b' false).2.serial_byte_size = b' ∧
    (RegisterDataGpio s data_gpio b' false).2.gpio_shadow.length
        = bytes_to_gpio_ops b' := by
  obtain ⟨-, hlen, -⟩ := reachable_inv s hs
  have hlen0 : bytes_to_gpio_ops s.serial_byte_size - 1 ≤ s.gpio_shadow.length := by
    rcases hlen with hl | ⟨h0, hnil⟩
    · omega
    · rw [hnil]
      simp [h0, bytes_to_gpio_ops]
  refine ⟨rfl, rfl, rfl, ?_, ?_⟩
  · show (registerGrow s b').serial_byte_size = b'
    rw [registerGrow_serial_byte_size]
    omega
  · exact registerGrow_length s b' hlen0 hb

/-- Witness for C10: a failing registration of 4 bytes on the reachable
state `exampleState` still leaves capacity 4. -/
theorem register_growth_before_reservation_witness :
    (RegisterDataGpio exampleState 24 4 false).2.serial_byte_size = 4 :=
  (register_growth_before_reservation exampleState exampleState_reachable 24 4
      (by decide)).2.2.2.1

end Spixels
